import Mathlib

/-!
Shallow embedding of the CronChat backend message-delivery and
conversation-state engine, translated from the Go sources
(`api-service/internal/user/repository.go` — the `chat` repository —,
`api-service/internal/httpserver/user.go`, the websocket fan-out helpers,
and `database.sql`), together with theorems settling the frozen claims.

Modelling conventions:
* MySQL `DATETIME` values are natural numbers (seconds); `DATE(t)` is
  `t / 86400` and `TIMESTAMP(day)` is `day * 86400`.
* Go `int64` identifiers are `Int`, so the `id <= 0` input guards of the
  repository translate literally.
* `sql.NullString` / nullable columns are `Option`; `strings.TrimSpace`
  is modelled by `trimSpace`, dropping leading and trailing whitespace
  characters from the code-point list of the string.
* Each table is a list of rows; `AUTO_INCREMENT` on `messages` is the
  `nextMessageId` counter.
-/

namespace CronChat

instance exceptDecEq {ε α : Type} [DecidableEq ε] [DecidableEq α] :
    DecidableEq (Except ε α) := fun x y =>
  match x, y with
  | .ok a, .ok b =>
    if h : a = b then isTrue (by rw [h])
    else isFalse (by intro he; cases he; exact h rfl)
  | .error a, .error b =>
    if h : a = b then isTrue (by rw [h])
    else isFalse (by intro he; cases he; exact h rfl)
  | .ok _, .error _ => isFalse (by intro h; cases h)
  | .error _, .ok _ => isFalse (by intro h; cases h)

abbrev Time := Nat

/-- Models strings.TrimSpace: drop leading and trailing whitespace
code points. -/
def trimSpace (s : String) : String :=
  String.mk (((s.data.dropWhile Char.isWhitespace).reverse.dropWhile
    Char.isWhitespace).reverse)

/-- Receipt status column of `message_receipts` (`delivered` or `seen`). -/
inductive ReceiptStatus where
  | delivered
  | seen
deriving DecidableEq, Repr

/-- Row of the `messages` table (with the reply columns added by the
ALTER TABLE statements of `database.sql`). -/
structure Msg where
  id : Int
  roomId : Int
  senderId : Int
  content : String
  messageType : String
  isTemp : Bool
  replyToMessageId : Option Int := none
  replyPreview : Option String := none
  replySenderName : Option String := none
  replyMessageType : Option String := none
  createdAt : Time
deriving DecidableEq, Repr

/-- Row of the `message_receipts` table; unique key `(messageId, userId)`. -/
structure ReceiptRow where
  roomId : Int
  messageId : Int
  userId : Int
  status : ReceiptStatus
  seenAt : Time
deriving DecidableEq, Repr

/-- Row of the `message_reactions` table; unique key
`(messageId, userId, label)`.  The surrogate id and created_at columns
play no role in the claims and are omitted. -/
structure Reaction where
  messageId : Int
  userId : Int
  label : String
deriving DecidableEq, Repr

/-- Row of the `room_members` table (seen-cursor columns). -/
structure Membership where
  roomId : Int
  userId : Int
  lastSeenMessageId : Option Int := none
  lastSeenAt : Option Time := none
deriving DecidableEq, Repr

/-- Columns of the `users` table consumed by the chat repository. -/
structure UserRow where
  id : Int
  username : String
  fullName : Option String := none
deriving DecidableEq, Repr

/-- The conversation store: one list per table plus the messages
AUTO_INCREMENT counter. -/
structure DB where
  messages : List Msg := []
  receipts : List ReceiptRow := []
  reactions : List Reaction := []
  members : List Membership := []
  users : List UserRow := []
  nextMessageId : Int := 1
deriving DecidableEq, Repr

/-! ### Day separators (`sp_send_message_with_day_sep` in database.sql) -/

def secondsPerDay : Nat := 86400

/-- MySQL `DATE(created_at)` on the numeric time model. -/
def dayOf (t : Time) : Nat := t / secondsPerDay

/-- MySQL `TIMESTAMP(v_day)`: midnight at the start of the day. -/
def startOfDay (d : Nat) : Time := d * secondsPerDay

/-- Reserved synthetic sender of system messages
(`DECLARE v_sys_id INT UNSIGNED DEFAULT 99999`). -/
def sysSenderId : Int := 99999

/-- The day-separator content label.  `DATE_FORMAT(v_day, Y-m-d)` is
abstracted to the decimal rendering of the day number; like the date
format it determines the day uniquely. -/
def dayLabel (d : Nat) : String := "--- " ++ toString d ++ " ---"

/-- Predicate of the `IF NOT EXISTS (...)` separator lookup in the
stored procedure: a system message from the reserved sender whose
content is the day label and whose creation date is that day. -/
def isDaySep (roomId : Int) (d : Nat) (m : Msg) : Bool :=
  m.roomId = roomId && m.senderId = sysSenderId &&
    m.messageType = "system" && m.content = dayLabel d &&
    dayOf m.createdAt = d

/-- Whether a day separator already exists for the room and day. -/
def sepExists (msgs : List Msg) (roomId : Int) (d : Nat) : Bool :=
  msgs.any (isDaySep roomId d)

/-- The fields `CreateMessage` passes to the stored procedure. -/
structure NewMessage where
  roomId : Int
  senderId : Int
  content : String
  messageType : String
  isTemp : Bool := false
  replyToMessageId : Option Int := none
  replyPreview : String := ""
  replySenderName : String := ""
  replyMessageType : String := ""
  createdAt : Time
deriving DecidableEq, Repr

/-- Go helper `nullIfEmpty`: trim, and map the empty string to NULL. -/
def nullIfEmpty (s : String) : Option String :=
  if trimSpace s = "" then none else some (trimSpace s)

/-- The day-separator row the stored procedure inserts: the reserved
sender, the day label, and `created_at = TIMESTAMP(v_day)`. -/
def sepMsgFor (roomId : Int) (d : Nat) (nid : Int) : Msg :=
  { id := nid, roomId := roomId, senderId := sysSenderId,
    content := dayLabel d, messageType := "system", isTemp := false,
    createdAt := startOfDay d }

/-- The real message row the stored procedure inserts. -/
def realMsgFor (nm : NewMessage) (nid : Int) : Msg :=
  { id := nid, roomId := nm.roomId, senderId := nm.senderId,
    content := nm.content, messageType := nm.messageType,
    isTemp := nm.isTemp, replyToMessageId := nm.replyToMessageId,
    replyPreview := nullIfEmpty nm.replyPreview,
    replySenderName := nullIfEmpty nm.replySenderName,
    replyMessageType := nullIfEmpty nm.replyMessageType,
    createdAt := nm.createdAt }

/-- Stored procedure `sp_send_message_with_day_sep`: for a non-system
message, insert a day separator stamped at the start of the calendar
day unless one already exists for this room and day, then insert the
real message row; returns the new state and the real message id
(`LAST_INSERT_ID()`).  The procedure body in `database.sql` predates
the reply columns; the reply fields are inserted on the real message
as in the call site `CreateMessage`. -/
def spSendMessageWithDaySep (db : DB) (nm : NewMessage) : DB × Int :=
  let d := dayOf nm.createdAt
  let db1 :=
    if nm.messageType ≠ "system" && !sepExists db.messages nm.roomId d then
      { db with
        messages := db.messages ++ [sepMsgFor nm.roomId d db.nextMessageId],
        nextMessageId := db.nextMessageId + 1 }
    else db
  ({ db1 with
      messages := db1.messages ++ [realMsgFor nm db1.nextMessageId],
      nextMessageId := db1.nextMessageId + 1 }, db1.nextMessageId)

/-! ### Reply resolution (`buildReplyPreview`, `fetchReplyInfo`) -/

/-- The only domain error of the pipeline
(`ErrInvalidReplyTarget`). -/
inductive CreateError where
  | invalidReplyTarget
deriving DecidableEq, Repr

structure ReplyInfo where
  preview : String
  senderName : String
  messageType : String
deriving DecidableEq, Repr

/-- Translation of `buildReplyPreview` (repository.go): image and file
types yield fixed icon labels; every other type trims the content and
truncates it to 300 code points (the `[]rune` slice of the Go code). -/
def buildReplyPreview (messageType : String) (content : Option String) :
    String :=
  let mt := trimSpace messageType
  if mt = "image" then "📷 Image"
  else if mt = "file" then "📎 File"
  else
    let txt := trimSpace (content.getD "")
    if txt = "" then ""
    else if txt.data.length > 300 then String.mk (txt.data.take 300)
    else txt

/-- Translation of `pickName`: prefer a non-blank full name, then a
non-blank username, else the literal Unknown. -/
def pickName (fullName username : Option String) : String :=
  if trimSpace (fullName.getD "") ≠ "" then trimSpace (fullName.getD "")
  else if trimSpace (username.getD "") ≠ "" then
    trimSpace (username.getD "")
  else "Unknown"

/-- The `SELECT ... FROM messages rm LEFT JOIN users u ... WHERE rm.id =
? AND rm.room_id = ?` of `fetchReplyInfo`. -/
def findMessageInRoom (db : DB) (roomId msgId : Int) : Option Msg :=
  db.messages.find? (fun m => m.id = msgId && m.roomId = roomId)

/-- Translation of `fetchReplyInfo`: the reply target restricted to the
same room; a missing row is `ErrInvalidReplyTarget`. -/
def fetchReplyInfo (db : DB) (roomId replyToId : Int) :
    Except CreateError ReplyInfo :=
  match findMessageInRoom db roomId replyToId with
  | none => .error .invalidReplyTarget
  | some rm =>
    let u := db.users.find? (fun u => u.id = rm.senderId)
    let mt :=
      if trimSpace rm.messageType ≠ "" then trimSpace rm.messageType
      else "text"
    .ok { preview := buildReplyPreview mt (some rm.content),
          senderName := pickName (u.bind UserRow.fullName)
            (u.map UserRow.username),
          messageType := mt }

/-- Translation of `CreateMessage`: optionally validate and resolve a
positive reply target (failing with `InvalidReplyTarget` before any
row is written), then run the stored procedure in one transaction. -/
def createMessage (db : DB) (nm : NewMessage) (validateReply : Bool) :
    Except CreateError (DB × Int) :=
  match nm.replyToMessageId with
  | some rid =>
    if rid > 0 && validateReply then
      match fetchReplyInfo db nm.roomId rid with
      | .error e => .error e
      | .ok info =>
        .ok (spSendMessageWithDaySep db
          { nm with
              replyPreview := info.preview,
              replySenderName := info.senderName,
              replyMessageType := info.messageType })
    else .ok (spSendMessageWithDaySep db nm)
  | none => .ok (spSendMessageWithDaySep db nm)

/-! ### Receipts (`SetDelivered`, `SetSeen`, `MarkRoomSeenUpTo`,
`GetRoomLastSeenMessageID`, `GetUnreadCount`) -/

/-- The unique key `uq_receipt_message_user` of `message_receipts`. -/
def receiptKeyMatches (r : ReceiptRow) (msgId userId : Int) : Bool :=
  r.messageId = msgId && r.userId = userId

/-- Row lookup by the unique receipt key (the first matching row, as
`find?` would return it). -/
def findReceipt (rs : List ReceiptRow) (msgId userId : Int) :
    Option ReceiptRow :=
  match rs with
  | [] => none
  | r :: rest =>
    if receiptKeyMatches r msgId userId then some r
    else findReceipt rest msgId userId

/-- One seen upsert (`INSERT ... ON DUPLICATE KEY UPDATE status = seen,
seen_at = GREATEST(seen_at, VALUES(seen_at))`).  The second component
is the MySQL affected-rows contribution: 1 for a fresh insert, 2 for an
update that changed the row, 0 otherwise. -/
def upsertSeenRow (rs : List ReceiptRow) (roomId msgId userId : Int)
    (now : Time) : List ReceiptRow × Int :=
  match rs with
  | [] => ([⟨roomId, msgId, userId, .seen, now⟩], 1)
  | r :: rest =>
    if receiptKeyMatches r msgId userId then
      let r2 : ReceiptRow :=
        { r with status := .seen, seenAt := max r.seenAt now }
      (r2 :: rest, if r2 = r then 0 else 2)
    else
      let p := upsertSeenRow rest roomId msgId userId now
      (r :: p.1, p.2)

/-- One delivered upsert of `SetDelivered`: `status = IF(status = seen,
seen, delivered)` and `seen_at = IF(status = seen, seen_at,
GREATEST(seen_at, VALUES(seen_at)))`.  MySQL evaluates the assignments
left to right, but since the status assignment never changes a seen or
a delivered row to the other value, reading the old status is
equivalent. -/
def upsertDeliveredRow (rs : List ReceiptRow) (roomId msgId userId : Int)
    (now : Time) : List ReceiptRow :=
  match rs with
  | [] => [⟨roomId, msgId, userId, .delivered, now⟩]
  | r :: rest =>
    if receiptKeyMatches r msgId userId then
      (if r.status = .seen then r
       else { r with status := .delivered, seenAt := max r.seenAt now })
        :: rest
    else r :: upsertDeliveredRow rest roomId msgId userId now

/-- Translation of `SetDelivered`. -/
def setDelivered (db : DB) (roomId msgId userId : Int) (now : Time) :
    Except String DB :=
  if roomId ≤ 0 || msgId ≤ 0 || userId ≤ 0 then .error "invalid input"
  else
    .ok { db with
      receipts := upsertDeliveredRow db.receipts roomId msgId userId now }

/-- Translation of `SetSeen`. -/
def setSeen (db : DB) (roomId msgId userId : Int) (now : Time) :
    Except String DB :=
  if roomId ≤ 0 || msgId ≤ 0 || userId ≤ 0 then .error "invalid input"
  else
    .ok { db with
      receipts := (upsertSeenRow db.receipts roomId msgId userId now).1 }

/-- The `INSERT ... SELECT` of `MarkRoomSeenUpTo`, folded over the
selected messages; accumulates the affected-row count. -/
def foldSeenUpserts (rs : List ReceiptRow) (targets : List Msg)
    (userId : Int) (now : Time) : List ReceiptRow × Int :=
  match targets with
  | [] => (rs, 0)
  | m :: ms =>
    let p := upsertSeenRow rs m.roomId m.id userId now
    let q := foldSeenUpserts p.1 ms userId now
    (q.1, p.2 + q.2)

/-- Translation of `MarkRoomSeenUpTo` of the chat repository: upsert a
seen receipt for every message of the room with id at most
`upToMessageID` and a different sender; returns the affected count.
The function touches only `message_receipts`. -/
def markRoomSeenUpTo (db : DB) (roomId userId upTo : Int) (now : Time) :
    Except String (DB × Int) :=
  if roomId ≤ 0 || userId ≤ 0 || upTo ≤ 0 then .error "invalid input"
  else
    let targets := db.messages.filter
      (fun m => m.roomId = roomId && m.id ≤ upTo && m.senderId ≠ userId)
    let p := foldSeenUpserts db.receipts targets userId now
    .ok ({ db with receipts := p.1 }, p.2)

/-- One step of the `MAX(message_id)` aggregation of
`GetRoomLastSeenMessageID`: a seen receipt of the user in the room
raises the running maximum. -/
def cursorStep (roomId userId : Int) (acc : Int) (r : ReceiptRow) :
    Int :=
  if r.roomId = roomId && r.userId = userId && r.status = .seen then
    max acc r.messageId
  else acc

/-- Translation of `GetRoomLastSeenMessageID`: `MAX(message_id)` over
the seen receipts of the user in the room, 0 when there are none. -/
def getRoomLastSeenMessageId (db : DB) (roomId userId : Int) : Int :=
  db.receipts.foldl (cursorStep roomId userId) 0

/-- The `SELECT last_seen_at FROM room_members WHERE room_id = ? AND
user_id = ?` lookup. -/
def findMembership (db : DB) (roomId userId : Int) : Option Membership :=
  db.members.find? (fun m => m.roomId = roomId && m.userId = userId)

/-- Translation of `GetUnreadCount`: read the membership row (a missing
row surfaces the no-rows scan error), treat a NULL `last_seen_at` as
the epoch, and count the non-system messages of the room from other
senders created strictly later. -/
def getUnreadCount (db : DB) (roomId userId : Int) : Except String Int :=
  match findMembership db roomId userId with
  | none => .error "sql: no rows in result set"
  | some mem =>
    let seenAt := mem.lastSeenAt.getD 0
    .ok (db.messages.countP
      (fun m => m.roomId = roomId && m.messageType ≠ "system" &&
        m.senderId ≠ userId && decide (seenAt < m.createdAt)) : Nat)

/-! ### Reactions (`ToggleReaction`, `GetReactionSummary`) -/

/-- The `WHERE message_id = ? AND user_id = ? AND reaction = ?` match
on the unique reaction triple. -/
def tripleMatches (msgId userId : Int) (label : String)
    (x : Reaction) : Bool :=
  x.messageId = msgId && x.userId = userId && x.label = label

/-- Existence of a reaction row for the unique triple. -/
def hasReaction (rs : List Reaction) (msgId userId : Int)
    (label : String) : Bool :=
  rs.any (tripleMatches msgId userId label)

/-- Deletion of every row of the triple (`DELETE FROM
message_reactions WHERE ...`). -/
def deleteTriple (rs : List Reaction) (msgId userId : Int)
    (label : String) : List Reaction :=
  rs.filter (fun x => !tripleMatches msgId userId label x)

/-- Translation of `ToggleReaction`: `INSERT IGNORE` on the unique
triple; a rejected duplicate is deleted instead. -/
def toggleReaction (db : DB) (msgId userId : Int) (reaction : String) :
    Except String (DB × Bool) :=
  let rc := trimSpace reaction
  if msgId ≤ 0 || userId ≤ 0 || rc = "" then .error "invalid input"
  else if !hasReaction db.reactions msgId userId rc then
    .ok ({ db with reactions := db.reactions ++ [⟨msgId, userId, rc⟩] },
      true)
  else
    .ok ({ db with
      reactions := deleteTriple db.reactions msgId userId rc }, false)

/-- Output rows of `GetReactionSummary`. -/
structure ReactionSummaryItem where
  reaction : String
  count : Nat
  reactedByMe : Bool
deriving DecidableEq, Repr

/-- The `ORDER BY cnt DESC, reaction ASC` order of the summary query. -/
def summaryLE (a b : ReactionSummaryItem) : Prop :=
  b.count < a.count ∨ (a.count = b.count ∧ a.reaction ≤ b.reaction)

instance : DecidableRel summaryLE := fun a b =>
  inferInstanceAs (Decidable (b.count < a.count ∨
    (a.count = b.count ∧ a.reaction ≤ b.reaction)))

instance : IsTotal ReactionSummaryItem summaryLE where
  total a b := by
    rcases Nat.lt_trichotomy a.count b.count with h | h | h
    · exact Or.inr (Or.inl h)
    · rcases le_total a.reaction b.reaction with h2 | h2
      · exact Or.inl (Or.inr ⟨h, h2⟩)
      · exact Or.inr (Or.inr ⟨h.symm, h2⟩)
    · exact Or.inl (Or.inl h)

instance : IsTrans ReactionSummaryItem summaryLE where
  trans a b c hab hbc := by
    rcases hab with h1 | ⟨h1, h1r⟩ <;> rcases hbc with h2 | ⟨h2, h2r⟩
    · exact Or.inl (h2.trans h1)
    · exact Or.inl (h2 ▸ h1)
    · exact Or.inl (h1 ▸ h2)
    · exact Or.inr ⟨h1.trans h2, h1r.trans h2r⟩

/-- Translation of `GetReactionSummary`: group the reactions of the
message by label, count each group, flag whether the viewer is in the
group, and sort by descending count with ties broken by label. -/
def getReactionSummary (db : DB) (msgId viewerId : Int) :
    Except String (List ReactionSummaryItem) :=
  if msgId ≤ 0 then .error "invalid message id"
  else
    let rows := db.reactions.filter (fun x => x.messageId = msgId)
    let labels := (rows.map Reaction.label).dedup
    let items := labels.map (fun l =>
      { reaction := l,
        count := rows.countP (fun x => x.label = l),
        reactedByMe := rows.any
          (fun x => x.label = l && x.userId = viewerId) })
    .ok (items.insertionSort summaryLE)

/-! ### Connection registry and fan-out dispatcher (`wsSendToUser`,
`wsSendToUsers`) -/

/-- One live websocket client: its owner, its buffered outbound queue
(`sendCh`, capacity 32 in the source, kept as a parameter), and
whether it has been forcibly closed. -/
structure ConnEntry where
  userId : Int
  queue : List String
  capacity : Nat
  closed : Bool
deriving DecidableEq, Repr

/-- The registry `wsByUser`, flattened to a list of clients. -/
abbrev Registry := List ConnEntry

/-- The non-blocking `select` send: enqueue when the buffered channel
has room, otherwise close the connection (slow-consumer eviction). -/
def enqueueOrClose (c : ConnEntry) (env : String) : ConnEntry :=
  if c.queue.length < c.capacity then { c with queue := c.queue ++ [env] }
  else { c with closed := true }

/-- Translation of `wsSendToUser`: an empty connection set returns
immediately; otherwise every connection of the user gets the
non-blocking enqueue. -/
def wsSendToUser (reg : Registry) (userId : Int) (env : String) :
    Registry :=
  if (reg.filter (fun c => c.userId = userId)).isEmpty then reg
  else reg.map (fun c =>
    if c.userId = userId then enqueueOrClose c env else c)

/-- Loop of `wsSendToUsers` with its seen set. -/
def wsSendToUsersGo (reg : Registry) (seen : List Int)
    (userIds : List Int) (env : String) : Registry :=
  match userIds with
  | [] => reg
  | u :: rest =>
    if u ∈ seen then wsSendToUsersGo reg seen rest env
    else wsSendToUsersGo (wsSendToUser reg u env) (u :: seen) rest env

/-- Translation of `wsSendToUsers`: de-duplicate the target list with a
seen set, dispatching to each distinct user once. -/
def wsSendToUsers (reg : Registry) (userIds : List Int) (env : String) :
    Registry :=
  wsSendToUsersGo reg [] userIds env

/-- First-occurrence de-duplication, the specification-side view of the
seen set of `wsSendToUsers`. -/
def firstDedupGo (seen : List Int) : List Int → List Int
  | [] => []
  | u :: rest =>
    if u ∈ seen then firstDedupGo seen rest
    else u :: firstDedupGo (u :: seen) rest

def firstDedup (l : List Int) : List Int := firstDedupGo [] l

/-! ### Send-message handler (`handleSendMessage`, steps 3 to 8) -/

/-- Error outcomes of the send-message handler. -/
inductive SendError where
  | invalidRoomId
  | notMember
  | contentRequired
  | invalidMessageType
  | invalidReplyTarget
deriving DecidableEq, Repr

/-- Translation of `IsUserInRoom` of the room repository: a positive
`COUNT(*)` over `room_members`. -/
def isUserInRoom (db : DB) (roomId userId : Int) : Bool :=
  db.members.any (fun m => m.roomId = roomId && m.userId = userId)

/-- The `message_type` normalization of `handleSendMessage`: trim, and
default an empty result to text. -/
def resolveMessageType (s : String) : String :=
  if trimSpace s = "" then "text" else trimSpace s

/-- Translation of the validation and persistence steps of
`handleSendMessage`: parse the room id, check membership, trim the
content and reject an empty one, default an empty trimmed
`message_type` to text and reject a type outside the four kinds, then
run `CreateMessage` with reply validation. -/
def handleSendMessage (db : DB) (roomId senderId : Int)
    (content messageType : String) (replyTo : Option Int) (now : Time) :
    Except SendError (DB × Int) :=
  if roomId ≤ 0 then .error .invalidRoomId
  else if !isUserInRoom db roomId senderId then .error .notMember
  else if trimSpace content = "" then .error .contentRequired
  else if resolveMessageType messageType = "text" ||
      resolveMessageType messageType = "image" ||
      resolveMessageType messageType = "file" ||
      resolveMessageType messageType = "system" then
    match createMessage db
      { roomId := roomId, senderId := senderId,
        content := trimSpace content,
        messageType := resolveMessageType messageType, isTemp := false,
        replyToMessageId := replyTo, createdAt := now } true with
    | .error .invalidReplyTarget => .error .invalidReplyTarget
    | .ok res => .ok res
  else .error .invalidMessageType

/-! ## Theorems -/

theorem string_mk_data (s : String) : String.mk s.data = s := rfl

/-- Shared helper: for any type other than image and file,
`buildReplyPreview` trims the content and truncates it to 300 code
points. -/
theorem buildReplyPreview_texty (mt : String) (s : String)
    (h1 : trimSpace mt ≠ "image") (h2 : trimSpace mt ≠ "file") :
    buildReplyPreview mt (some s) =
      String.mk ((trimSpace s).data.take 300) := by
  unfold buildReplyPreview
  simp only [Option.getD_some]
  rw [if_neg h1, if_neg h2]
  by_cases ht : trimSpace s = ""
  · rw [if_pos (by simpa using ht), ht]
    rfl
  · rw [if_neg (by simpa using ht)]
    by_cases hl : ((trimSpace s).data).length > 300
    · rw [if_pos hl]
    · rw [if_neg hl,
        List.take_of_length_le (Nat.le_of_not_lt hl), string_mk_data]

/-- C7: the reply preview is the fixed icon label for image and file
targets; for text and system targets it is the content trimmed of
surrounding whitespace and truncated to its first 300 code points,
with the empty preview allowed. -/
theorem reply_preview_spec :
    (∀ c : Option String, buildReplyPreview "image" c = "📷 Image") ∧
    (∀ c : Option String, buildReplyPreview "file" c = "📎 File") ∧
    (∀ s : String, buildReplyPreview "text" (some s) =
      String.mk ((trimSpace s).data.take 300)) ∧
    (∀ s : String, buildReplyPreview "system" (some s) =
      String.mk ((trimSpace s).data.take 300)) ∧
    buildReplyPreview "text" (some "  ") = "" := by
  refine ⟨fun c => rfl, fun c => rfl,
    fun s => buildReplyPreview_texty "text" s (by decide) (by decide),
    fun s => buildReplyPreview_texty "system" s (by decide) (by decide),
    by decide⟩

/-- C5: a message create whose reply target is set (a positive id) but
does not exist as a message of the same room fails with
`InvalidReplyTarget`, producing no new state. -/
theorem create_invalid_reply_target (db : DB) (nm : NewMessage)
    (rid : Int) (hr : nm.replyToMessageId = some rid) (hpos : 0 < rid)
    (habs : ∀ m ∈ db.messages, ¬(m.id = rid ∧ m.roomId = nm.roomId)) :
    createMessage db nm true = .error .invalidReplyTarget := by
  unfold createMessage
  rw [hr]
  dsimp only
  have hguard : (rid > 0 && true) = true := by simp [hpos]
  rw [if_pos hguard]
  have hfind : findMessageInRoom db nm.roomId rid = none := by
    unfold findMessageInRoom
    rw [List.find?_eq_none]
    intro m hm
    simpa using habs m hm
  unfold fetchReplyInfo
  rw [hfind]

/-- Witness fixture: a message request replying to an absent id. -/
def nmDangling : NewMessage :=
  { roomId := 1, senderId := 2, content := "c", messageType := "text",
    replyToMessageId := some 5, createdAt := 0 }

/-- C5 witness. -/
theorem create_invalid_reply_target_witness :
    createMessage { } nmDangling true = .error .invalidReplyTarget :=
  create_invalid_reply_target _ _ 5 rfl (by decide) (by simp)

/-- C6: with an existing membership row, the unread count is exactly
the number of non-system messages of the room from other senders
created strictly after the membership's last-seen time, a never-seen
membership counting from the epoch. -/
theorem unread_count_spec (db : DB) (roomId userId : Int)
    (mem : Membership) (hm : findMembership db roomId userId = some mem) :
    getUnreadCount db roomId userId =
      .ok ((db.messages.countP (fun m =>
        decide (m.roomId = roomId ∧ m.messageType ≠ "system" ∧
          m.senderId ≠ userId ∧
          mem.lastSeenAt.getD 0 < m.createdAt)) : Nat) : Int) := by
  unfold getUnreadCount
  rw [hm]
  dsimp only
  congr 1
  congr 1
  apply List.countP_congr
  intro m _
  simp [and_assoc]

/-- Witness fixture: a plain text message from user 3 in room 1. -/
def msgHi : Msg :=
  { id := 1, roomId := 1, senderId := 3, content := "hi",
    messageType := "text", isTemp := false, createdAt := 100 }

/-- Witness fixture: room 1 with member 2 and one unseen message from
user 3. -/
def dbOneMsg : DB :=
  { messages := [msgHi],
    members := [{ roomId := 1, userId := 2 }],
    nextMessageId := 2 }

/-- C6 witness. -/
theorem unread_count_spec_witness :
    getUnreadCount dbOneMsg 1 2 = .ok 1 := by
  rw [unread_count_spec dbOneMsg 1 2 { roomId := 1, userId := 2 }
    (by decide)]
  decide

/-- Shared helper: the reaction-triple predicate picks out exactly the
canonical row. -/
theorem tripleMatches_iff (msgId userId : Int) (rc : String)
    (x : Reaction) :
    tripleMatches msgId userId rc x = true ↔ x = ⟨msgId, userId, rc⟩ := by
  cases x
  simp [tripleMatches, Reaction.mk.injEq, and_assoc]

/-- Shared helper: triple existence is membership of the canonical
row. -/
theorem hasReaction_iff_mem (rs : List Reaction) (msgId userId : Int)
    (rc : String) :
    hasReaction rs msgId userId rc = true ↔
      (⟨msgId, userId, rc⟩ : Reaction) ∈ rs := by
  rw [hasReaction, List.any_eq_true]
  constructor
  · rintro ⟨x, hx, hp⟩
    exact ((tripleMatches_iff msgId userId rc x).mp hp) ▸ hx
  · intro hmem
    exact ⟨_, hmem, (tripleMatches_iff msgId userId rc _).mpr rfl⟩

/-- Shared helper: when the triple is absent, toggling inserts it. -/
theorem toggleReaction_insert (db : DB) (msgId userId : Int)
    (label : String) (h1 : 0 < msgId) (h2 : 0 < userId)
    (h3 : trimSpace label ≠ "")
    (habs : hasReaction db.reactions msgId userId (trimSpace label)
      = false) :
    toggleReaction db msgId userId label =
      .ok ({ db with reactions :=
        db.reactions ++ [⟨msgId, userId, trimSpace label⟩] }, true) := by
  unfold toggleReaction
  rw [if_neg (by simp [not_le.mpr h1, not_le.mpr h2, h3]),
    if_pos (by simp [habs])]

/-- Shared helper: when the triple is present, toggling deletes every
row of the triple. -/
theorem toggleReaction_delete (db : DB) (msgId userId : Int)
    (label : String) (h1 : 0 < msgId) (h2 : 0 < userId)
    (h3 : trimSpace label ≠ "")
    (hhas : hasReaction db.reactions msgId userId (trimSpace label)
      = true) :
    toggleReaction db msgId userId label =
      .ok ({ db with reactions := deleteTriple db.reactions msgId userId (trimSpace label) }, false) := by
  unfold toggleReaction
  rw [if_neg (by simp [not_le.mpr h1, not_le.mpr h2, h3]),
    if_neg (by simp [hhas])]

/-- Shared helper: deleting an absent triple is the identity. -/
theorem deleteTriple_of_absent (rs : List Reaction)
    (msgId userId : Int) (rc : String)
    (habs : hasReaction rs msgId userId rc = false) :
    deleteTriple rs msgId userId rc = rs := by
  rw [deleteTriple, List.filter_eq_self]
  intro x hx
  simp only [Bool.not_eq_true']
  rw [hasReaction] at habs
  exact Bool.not_eq_true _ ▸ List.any_eq_false.mp habs x hx

/-- Shared helper: triple deletion distributes over append. -/
theorem deleteTriple_append (l1 l2 : List Reaction) (msgId userId : Int)
    (rc : String) :
    deleteTriple (l1 ++ l2) msgId userId rc =
      deleteTriple l1 msgId userId rc ++ deleteTriple l2 msgId userId rc := by
  simp [deleteTriple, List.filter_append]

/-- Shared helper: deleting the triple from its own singleton empties
it. -/
theorem deleteTriple_self_singleton (msgId userId : Int) (rc : String) :
    deleteTriple [(⟨msgId, userId, rc⟩ : Reaction)] msgId userId rc
      = [] := by
  simp [deleteTriple, tripleMatches]

/-- C4: toggling a reaction is an involution.  Starting from a state
without the (message, user, label) triple, the first call appends the
row and reports added, the second call removes it and restores the
state exactly; in general two consecutive toggles preserve the set of
reaction rows and flip the added flag, and a toggle never introduces a
duplicate triple. -/
theorem toggle_reaction_involution (db : DB) (msgId userId : Int)
    (label : String) (h1 : 0 < msgId) (h2 : 0 < userId)
    (h3 : trimSpace label ≠ "") :
    (hasReaction db.reactions msgId userId (trimSpace label) = false →
      toggleReaction db msgId userId label =
        .ok ({ db with reactions :=
          db.reactions ++ [⟨msgId, userId, trimSpace label⟩] }, true) ∧
      toggleReaction { db with reactions :=
          db.reactions ++ [⟨msgId, userId, trimSpace label⟩] }
        msgId userId label = .ok (db, false)) ∧
    (∀ db2 b db3 b2,
      toggleReaction db msgId userId label = .ok (db2, b) →
      toggleReaction db2 msgId userId label = .ok (db3, b2) →
      (∀ x, x ∈ db3.reactions ↔ x ∈ db.reactions) ∧ b2 = !b) ∧
    (∀ db2 b, toggleReaction db msgId userId label = .ok (db2, b) →
      db.reactions.Nodup → db2.reactions.Nodup) := by
  have hrc : trimSpace label = trimSpace label := rfl
  refine ⟨?_, ?_, ?_⟩
  · intro habs
    refine ⟨toggleReaction_insert db msgId userId label h1 h2 h3 habs, ?_⟩
    have hhas1 : hasReaction
        ({ db with reactions :=
          db.reactions ++ [⟨msgId, userId, trimSpace label⟩] } : DB).reactions
        msgId userId (trimSpace label) = true := by
      rw [hasReaction_iff_mem]
      simp
    rw [toggleReaction_delete _ msgId userId label h1 h2 h3 hhas1]
    have hclean : deleteTriple
        (db.reactions ++ [⟨msgId, userId, trimSpace label⟩])
        msgId userId (trimSpace label) = db.reactions := by
      rw [deleteTriple_append,
        deleteTriple_of_absent db.reactions msgId userId _ habs,
        deleteTriple_self_singleton, List.append_nil]
    show Except.ok ({ db with reactions := deleteTriple (db.reactions ++ [(⟨msgId, userId, trimSpace label⟩ : Reaction)]) msgId userId (trimSpace label) }, false) = Except.ok (db, false)
    rw [hclean]
  · intro db2 b db3 b2 htog1 htog2
    by_cases hhas : hasReaction db.reactions msgId userId
        (trimSpace label) = true
    · rw [toggleReaction_delete db msgId userId label h1 h2 h3 hhas]
        at htog1
      simp only [Except.ok.injEq, Prod.mk.injEq] at htog1
      obtain ⟨hdb2, hb⟩ := htog1
      have hhas2 : hasReaction db2.reactions msgId userId
          (trimSpace label) = false := by
        rw [← hdb2]
        show hasReaction
          (deleteTriple db.reactions msgId userId (trimSpace label))
          _ _ _ = false
        rw [Bool.eq_false_iff, Ne, hasReaction_iff_mem]
        intro hmem
        have hpred := List.of_mem_filter hmem
        simp only [Bool.not_eq_true'] at hpred
        have htrue := (tripleMatches_iff msgId userId (trimSpace label)
          ⟨msgId, userId, trimSpace label⟩).mpr rfl
        exact absurd (htrue.symm.trans hpred) (by decide)
      rw [toggleReaction_insert db2 msgId userId label h1 h2 h3 hhas2]
        at htog2
      simp only [Except.ok.injEq, Prod.mk.injEq] at htog2
      obtain ⟨hdb3, hb2⟩ := htog2
      refine ⟨?_, by rw [← hb2, ← hb]; rfl⟩
      intro x
      rw [← hdb3]
      show x ∈ db2.reactions ++ [(⟨msgId, userId, trimSpace label⟩ : Reaction)] ↔ _
      rw [List.mem_append, ← hdb2]
      show x ∈ deleteTriple db.reactions msgId userId (trimSpace label) ∨ _ ↔ _
      constructor
      · rintro (hx | hx)
        · exact List.mem_of_mem_filter hx
        · rw [List.mem_singleton] at hx
          rw [hx]
          exact (hasReaction_iff_mem db.reactions msgId userId _).mp hhas
      · intro hx
        by_cases hxeq : x = ⟨msgId, userId, trimSpace label⟩
        · right
          simp [hxeq]
        · left
          apply List.mem_filter.mpr
          refine ⟨hx, ?_⟩
          simp only [Bool.not_eq_true']
          rw [Bool.eq_false_iff]
          intro hp
          exact hxeq ((tripleMatches_iff msgId userId _ x).mp hp)
    · rw [Bool.not_eq_true] at hhas
      rw [toggleReaction_insert db msgId userId label h1 h2 h3 hhas]
        at htog1
      simp only [Except.ok.injEq, Prod.mk.injEq] at htog1
      obtain ⟨hdb2, hb⟩ := htog1
      have hhas2 : hasReaction db2.reactions msgId userId
          (trimSpace label) = true := by
        rw [← hdb2, hasReaction_iff_mem]
        simp
      rw [toggleReaction_delete db2 msgId userId label h1 h2 h3 hhas2]
        at htog2
      simp only [Except.ok.injEq, Prod.mk.injEq] at htog2
      obtain ⟨hdb3, hb2⟩ := htog2
      refine ⟨?_, by rw [← hb2, ← hb]; rfl⟩
      intro x
      rw [← hdb3]
      show x ∈ deleteTriple db2.reactions msgId userId (trimSpace label) ↔ _
      rw [← hdb2]
      show x ∈ deleteTriple (db.reactions ++ [(⟨msgId, userId, trimSpace label⟩ : Reaction)]) msgId userId (trimSpace label) ↔ _
      rw [deleteTriple_append,
        deleteTriple_of_absent db.reactions msgId userId _ hhas,
        deleteTriple_self_singleton, List.append_nil]
  · intro db2 b htog hnd
    by_cases hhas : hasReaction db.reactions msgId userId
        (trimSpace label) = true
    · rw [toggleReaction_delete db msgId userId label h1 h2 h3 hhas]
        at htog
      simp only [Except.ok.injEq, Prod.mk.injEq] at htog
      rw [← htog.1]
      exact hnd.filter _
    · rw [Bool.not_eq_true] at hhas
      rw [toggleReaction_insert db msgId userId label h1 h2 h3 hhas]
        at htog
      simp only [Except.ok.injEq, Prod.mk.injEq] at htog
      rw [← htog.1]
      show (db.reactions ++ [(⟨msgId, userId, trimSpace label⟩ : Reaction)]).Nodup
      rw [List.nodup_append]
      refine ⟨hnd, List.nodup_singleton _, ?_⟩
      intro x hx hmem
      rw [List.mem_singleton] at hmem
      rw [Bool.eq_false_iff, Ne, hasReaction_iff_mem] at hhas
      exact hhas (hmem ▸ hx)

/-- C4 witness. -/
theorem toggle_reaction_involution_witness :
    toggleReaction { } 1 7 " x " =
      .ok ({ reactions := [⟨1, 7, "x"⟩] }, true) ∧
    toggleReaction { reactions := [⟨1, 7, "x"⟩] } 1 7 " x " =
      .ok ({ }, false) := by
  have h := (toggle_reaction_involution { } 1 7 " x "
    (by decide) (by decide) (by decide)).1 (by decide)
  have ht : trimSpace " x " = "x" := by decide
  rw [ht] at h
  exact h

/-! ### Day-separator uniqueness (C2) and type defaulting (C10) -/

/-- Number of day separators of a room and day in a message list. -/
def sepCount (msgs : List Msg) (roomId : Int) (d : Nat) : Nat :=
  msgs.countP (isDaySep roomId d)

theorem dayOf_startOfDay (d : Nat) : dayOf (startOfDay d) = d := by
  simp [dayOf, startOfDay, secondsPerDay]

/-- Shared helper: the inserted separator is a separator for exactly
its own room and day. -/
theorem isDaySep_sepMsgFor (rid : Int) (dd : Nat) (roomId : Int)
    (d : Nat) (nid : Int) :
    isDaySep rid dd (sepMsgFor roomId d nid) = true ↔
      rid = roomId ∧ dd = d := by
  unfold isDaySep sepMsgFor
  simp only [Bool.and_eq_true, decide_eq_true_eq]
  constructor
  · rintro ⟨⟨⟨⟨hroom, _⟩, _⟩, _⟩, hday⟩
    rw [dayOf_startOfDay] at hday
    exact ⟨hroom.symm, hday.symm⟩
  · rintro ⟨hroom, hday⟩
    subst hroom
    subst hday
    simp [dayOf_startOfDay]

/-- Shared helper: a non-system real message is never a separator. -/
theorem isDaySep_realMsgFor (rid : Int) (dd : Nat) (nm : NewMessage)
    (nid : Int) (hsys : nm.messageType ≠ "system") :
    isDaySep rid dd (realMsgFor nm nid) = false := by
  unfold isDaySep realMsgFor
  simp [hsys]

/-- Shared helper: behaviour of the stored procedure when the day has
no separator yet. -/
theorem spSend_insert (db : DB) (nm : NewMessage)
    (hsys : nm.messageType ≠ "system")
    (habs : sepExists db.messages nm.roomId (dayOf nm.createdAt)
      = false) :
    spSendMessageWithDaySep db nm =
      ({ db with
          messages := (db.messages ++
            [sepMsgFor nm.roomId (dayOf nm.createdAt) db.nextMessageId])
            ++ [realMsgFor nm (db.nextMessageId + 1)],
          nextMessageId := db.nextMessageId + 1 + 1 },
        db.nextMessageId + 1) := by
  unfold spSendMessageWithDaySep
  dsimp only
  rw [if_pos (show (decide (nm.messageType ≠ "system") &&
    !sepExists db.messages nm.roomId (dayOf nm.createdAt)) = true by
      simp [hsys, habs])]

/-- Shared helper: behaviour of the stored procedure when no separator
is inserted (system message, or the separator already exists). -/
theorem spSend_noinsert (db : DB) (nm : NewMessage)
    (h : (decide (nm.messageType ≠ "system") &&
      !sepExists db.messages nm.roomId (dayOf nm.createdAt)) = false) :
    spSendMessageWithDaySep db nm =
      ({ db with
          messages := db.messages ++ [realMsgFor nm db.nextMessageId],
          nextMessageId := db.nextMessageId + 1 },
        db.nextMessageId) := by
  unfold spSendMessageWithDaySep
  dsimp only
  rw [if_neg (show ¬(decide (nm.messageType ≠ "system") &&
    !sepExists db.messages nm.roomId (dayOf nm.createdAt)) = true by
      rw [h]; decide)]

/-- Shared helper: `sepExists` is the positivity of `sepCount`. -/
theorem sepExists_iff_sepCount (msgs : List Msg) (roomId : Int)
    (d : Nat) :
    sepExists msgs roomId d = true ↔ 0 < sepCount msgs roomId d := by
  rw [sepExists, sepCount, List.any_eq_true, Nat.pos_iff_ne_zero, Ne,
    List.countP_eq_zero]
  push_neg
  rfl

/-- C2: at most one day separator per room and day.  Creating a
non-system message preserves the invariant; when no separator exists
for the room and the message day, exactly the separator (stamped at
the start of the day) and the real message are appended, the separator
id below the message id; when one exists, only the real message is
appended. -/
theorem day_separator_unique (db : DB) (nm : NewMessage)
    (hsys : nm.messageType ≠ "system")
    (hinv : ∀ rid dd, sepCount db.messages rid dd ≤ 1) :
    (∀ rid dd,
      sepCount (spSendMessageWithDaySep db nm).1.messages rid dd ≤ 1) ∧
    (sepExists db.messages nm.roomId (dayOf nm.createdAt) = false →
      (spSendMessageWithDaySep db nm).1.messages =
        db.messages ++
          [sepMsgFor nm.roomId (dayOf nm.createdAt) db.nextMessageId,
            realMsgFor nm (db.nextMessageId + 1)] ∧
      (sepMsgFor nm.roomId (dayOf nm.createdAt) db.nextMessageId).id <
        (realMsgFor nm (db.nextMessageId + 1)).id ∧
      (sepMsgFor nm.roomId (dayOf nm.createdAt)
        db.nextMessageId).createdAt = startOfDay (dayOf nm.createdAt) ∧
      isDaySep nm.roomId (dayOf nm.createdAt)
        (sepMsgFor nm.roomId (dayOf nm.createdAt) db.nextMessageId)
        = true) ∧
    (sepExists db.messages nm.roomId (dayOf nm.createdAt) = true →
      (spSendMessageWithDaySep db nm).1.messages =
        db.messages ++ [realMsgFor nm db.nextMessageId]) := by
  refine ⟨?_, ?_, ?_⟩
  · intro rid dd
    by_cases hex : sepExists db.messages nm.roomId (dayOf nm.createdAt)
        = true
    · rw [spSend_noinsert db nm (by simp [hex])]
      show sepCount (db.messages ++ [realMsgFor nm db.nextMessageId])
        rid dd ≤ 1
      rw [sepCount, List.countP_append]
      have hreal := isDaySep_realMsgFor rid dd nm db.nextMessageId hsys
      simp only [List.countP_singleton, hreal, if_false]
      simpa [sepCount] using hinv rid dd
    · rw [Bool.not_eq_true] at hex
      rw [spSend_insert db nm hsys hex]
      show sepCount ((db.messages ++
        [sepMsgFor nm.roomId (dayOf nm.createdAt) db.nextMessageId])
        ++ [realMsgFor nm (db.nextMessageId + 1)]) rid dd ≤ 1
      rw [sepCount, List.countP_append, List.countP_append]
      have hreal := isDaySep_realMsgFor rid dd nm (db.nextMessageId + 1)
        hsys
      simp only [List.countP_singleton, hreal, if_false, Nat.add_zero]
      by_cases hsame : rid = nm.roomId ∧ dd = dayOf nm.createdAt
      · have hzero : List.countP (isDaySep rid dd) db.messages = 0 := by
          rw [List.countP_eq_zero]
          intro m hm hct
          rw [hsame.1, hsame.2] at hct
          have hexm : sepExists db.messages nm.roomId
              (dayOf nm.createdAt) = true := by
            rw [sepExists, List.any_eq_true]
            exact ⟨m, hm, hct⟩
          rw [hexm] at hex
          cases hex
        rw [hzero,
          if_pos ((isDaySep_sepMsgFor rid dd nm.roomId _ _).mpr hsame)]
        decide
      · rw [if_neg (by rw [isDaySep_sepMsgFor]; exact hsame),
          Nat.add_zero]
        simpa [sepCount] using hinv rid dd
  · intro habs
    rw [spSend_insert db nm hsys habs]
    refine ⟨by simp, ?_, rfl,
      (isDaySep_sepMsgFor _ _ _ _ _).mpr ⟨rfl, rfl⟩⟩
    simp only [sepMsgFor, realMsgFor]
    omega
  · intro hex
    rw [spSend_noinsert db nm (by simp [hex])]

/-- Witness fixture: a plain text message request. -/
def nmPlain : NewMessage :=
  { roomId := 1, senderId := 3, content := "hi",
    messageType := "text", createdAt := 90000 }

/-- C2 witness. -/
theorem day_separator_unique_witness :
    sepCount (spSendMessageWithDaySep { } nmPlain).1.messages 1 1 ≤ 1 :=
  (day_separator_unique { } nmPlain (by decide)
    (fun rid dd => by simp [sepCount])).1 1 1

/-- Shared helper: a create without a reply target is just the stored
procedure. -/
theorem createMessage_no_reply (db : DB) (nm : NewMessage)
    (v : Bool) (h : nm.replyToMessageId = none) :
    createMessage db nm v = .ok (spSendMessageWithDaySep db nm) := by
  unfold createMessage
  rw [h]

/-- Shared helper: the stored procedure always appends the real
message, whose id it returns. -/
theorem spSend_real_message (db : DB) (nm : NewMessage) :
    ∃ m : Msg, m ∈ (spSendMessageWithDaySep db nm).1.messages ∧
      m.id = (spSendMessageWithDaySep db nm).2 ∧
      m.messageType = nm.messageType ∧ m.senderId = nm.senderId ∧
      m.content = nm.content ∧ m.createdAt = nm.createdAt := by
  by_cases h : (decide (nm.messageType ≠ "system") &&
      !sepExists db.messages nm.roomId (dayOf nm.createdAt)) = true
  · rw [Bool.and_eq_true] at h
    have hsys : nm.messageType ≠ "system" := by simpa using h.1
    have habs : sepExists db.messages nm.roomId (dayOf nm.createdAt)
        = false := by simpa using h.2
    rw [spSend_insert db nm hsys habs]
    exact ⟨realMsgFor nm (db.nextMessageId + 1), by simp, rfl, rfl, rfl,
      rfl, rfl⟩
  · rw [Bool.not_eq_true] at h
    rw [spSend_noinsert db nm h]
    exact ⟨realMsgFor nm db.nextMessageId, by simp, rfl, rfl, rfl, rfl,
      rfl⟩

/-- C10: a send-message request whose `message_type` is empty or only
whitespace is not rejected: the type silently defaults to text and the
message is created as a text message; only a non-empty type outside
the four kinds is rejected as invalid input. -/
theorem send_message_type_defaulting (db : DB) (roomId senderId : Int)
    (content : String) (now : Time) (hroom : 0 < roomId)
    (hmem : isUserInRoom db roomId senderId = true)
    (hc : trimSpace content ≠ "") :
    (∀ messageType, trimSpace messageType = "" →
      ∃ db2 msgId,
        handleSendMessage db roomId senderId content messageType none now
          = .ok (db2, msgId) ∧
        ∃ m : Msg, m ∈ db2.messages ∧ m.id = msgId ∧
          m.messageType = "text" ∧ m.senderId = senderId ∧
          m.content = trimSpace content) ∧
    (∀ messageType, trimSpace messageType ≠ "" →
      trimSpace messageType ≠ "text" →
      trimSpace messageType ≠ "image" →
      trimSpace messageType ≠ "file" →
      trimSpace messageType ≠ "system" →
      handleSendMessage db roomId senderId content messageType none now
        = .error .invalidMessageType) := by
  constructor
  · intro messageType hmt
    have hres : resolveMessageType messageType = "text" := by
      rw [resolveMessageType, if_pos hmt]
    unfold handleSendMessage
    rw [if_neg (not_le.mpr hroom), if_neg (by simp [hmem]),
      if_neg hc, hres, if_pos (by simp)]
    rw [createMessage_no_reply _ _ _ rfl]
    obtain ⟨m, hmm, hid, hty, hsd, hct, _⟩ := spSend_real_message db
      { roomId := roomId, senderId := senderId,
        content := trimSpace content, messageType := "text",
        isTemp := false, replyToMessageId := none, createdAt := now }
    exact ⟨_, _, rfl, m, hmm, hid, hty, hsd, hct⟩
  · intro messageType hne h1 h2 h3 h4
    have hres : resolveMessageType messageType = trimSpace messageType := by
      rw [resolveMessageType, if_neg hne]
    unfold handleSendMessage
    rw [if_neg (not_le.mpr hroom), if_neg (by simp [hmem]),
      if_neg hc, hres, if_neg (by simp [h1, h2, h3, h4])]

/-- Witness fixture: room 1 whose only member is user 2. -/
def dbRoomOnly : DB :=
  { members := [{ roomId := 1, userId := 2 }] }

/-- C10 witness. -/
theorem send_message_type_defaulting_witness :
    ∃ db2 msgId,
      handleSendMessage dbRoomOnly 1 2 "hello" "   " none 90000
        = .ok (db2, msgId) ∧
      ∃ m : Msg, m ∈ db2.messages ∧ m.id = msgId ∧
        m.messageType = "text" ∧ m.senderId = 2 ∧
        m.content = trimSpace "hello" :=
  (send_message_type_defaulting dbRoomOnly 1 2 "hello" 90000
    (by decide) (by decide) (by decide)).1 "   " (by decide)

/-! ### Fan-out dispatcher (C9) -/

/-- Shared helper: the dispatcher early-return on an empty connection
set coincides with the per-connection map. -/
theorem wsSendToUser_eq_map (reg : Registry) (uid : Int)
    (env : String) :
    wsSendToUser reg uid env =
      reg.map (fun c => if c.userId = uid then enqueueOrClose c env
        else c) := by
  unfold wsSendToUser
  by_cases h : (reg.filter (fun c => c.userId = uid)).isEmpty = true
  · rw [if_pos h]
    rw [List.isEmpty_iff] at h
    symm
    have hid : ∀ c ∈ reg,
        (if c.userId = uid then enqueueOrClose c env else c) = c := by
      intro c hc
      rw [if_neg]
      intro heq
      have hmem : c ∈ reg.filter (fun c => c.userId = uid) :=
        List.mem_filter.mpr ⟨hc, by simp [heq]⟩
      rw [h] at hmem
      cases hmem
    calc reg.map (fun c => if c.userId = uid then enqueueOrClose c env
          else c)
        = reg.map id := List.map_congr_left hid
      _ = reg := List.map_id reg
  · rw [if_neg h]

/-- Shared helper: the seen-set loop of `wsSendToUsers` dispatches over
the first-occurrence de-duplicated list. -/
theorem wsSendToUsersGo_eq_foldl (userIds : List Int) (reg : Registry)
    (seen : List Int) (env : String) :
    wsSendToUsersGo reg seen userIds env =
      (firstDedupGo seen userIds).foldl
        (fun r u => wsSendToUser r u env) reg := by
  induction userIds generalizing reg seen with
  | nil => rfl
  | cons u rest ih =>
    by_cases h : u ∈ seen
    · rw [wsSendToUsersGo, firstDedupGo, if_pos h, if_pos h]
      exact ih reg seen
    · rw [wsSendToUsersGo, firstDedupGo, if_neg h, if_neg h,
        List.foldl_cons]
      exact ih (wsSendToUser reg u env) (u :: seen)

/-- Shared helper: membership in the first-occurrence
de-duplication. -/
theorem mem_firstDedupGo (l : List Int) (seen : List Int) (u : Int) :
    u ∈ firstDedupGo seen l ↔ u ∈ l ∧ u ∉ seen := by
  induction l generalizing seen with
  | nil => simp [firstDedupGo]
  | cons v rest ih =>
    by_cases hv : v ∈ seen
    · rw [firstDedupGo, if_pos hv, ih]
      constructor
      · rintro ⟨hu, hs⟩
        exact ⟨List.mem_cons_of_mem v hu, hs⟩
      · rintro ⟨hu, hs⟩
        rcases List.mem_cons.mp hu with huv | hu
        · exact absurd (huv ▸ hv) hs
        · exact ⟨hu, hs⟩
    · rw [firstDedupGo, if_neg hv]
      constructor
      · intro hmem
        rcases List.mem_cons.mp hmem with huv | hu
        · exact ⟨huv ▸ List.mem_cons_self v rest, huv ▸ hv⟩
        · obtain ⟨hr, hs⟩ := (ih (v :: seen)).mp hu
          exact ⟨List.mem_cons_of_mem v hr,
            fun hc => hs (List.mem_cons_of_mem v hc)⟩
      · rintro ⟨hu, hs⟩
        rcases List.mem_cons.mp hu with huv | hu
        · exact huv ▸ List.mem_cons_self v _
        · by_cases huv : u = v
          · exact huv ▸ List.mem_cons_self v _
          · exact List.mem_cons_of_mem v ((ih (v :: seen)).mpr
              ⟨hu, by simp [huv, hs]⟩)

/-- Shared helper: the first-occurrence de-duplication has no
duplicates. -/
theorem nodup_firstDedupGo (l : List Int) (seen : List Int) :
    (firstDedupGo seen l).Nodup := by
  induction l generalizing seen with
  | nil => exact List.nodup_nil
  | cons v rest ih =>
    by_cases hv : v ∈ seen
    · rw [firstDedupGo, if_pos hv]
      exact ih seen
    · rw [firstDedupGo, if_neg hv]
      refine List.Nodup.cons ?_ (ih (v :: seen))
      intro hmem
      exact ((mem_firstDedupGo rest (v :: seen) v).mp hmem).2
        (List.mem_cons_self v seen)

/-- C9: fan-out to a user with no live connections changes nothing;
fan-out to a user with connections enqueues the envelope on every
connection of that user with queue room, closes exactly the full ones,
and leaves other users' connections untouched; fan-out to a list of
users de-duplicates the targets, dispatching once per distinct user. -/
theorem fanout_dispatch_spec :
    (∀ (reg : Registry) (uid : Int) (env : String),
      (∀ c ∈ reg, c.userId ≠ uid) → wsSendToUser reg uid env = reg) ∧
    (∀ (c : ConnEntry) (env : String), c.queue.length < c.capacity →
      enqueueOrClose c env =
        { c with queue := c.queue ++ [env] }) ∧
    (∀ (c : ConnEntry) (env : String),
      ¬c.queue.length < c.capacity →
      enqueueOrClose c env = { c with closed := true }) ∧
    (∀ (reg : Registry) (uid : Int) (env : String),
      wsSendToUser reg uid env =
        reg.map (fun c => if c.userId = uid then enqueueOrClose c env
          else c)) ∧
    (∀ (reg : Registry) (userIds : List Int) (env : String),
      wsSendToUsers reg userIds env =
        (firstDedup userIds).foldl
          (fun r u => wsSendToUser r u env) reg) ∧
    (∀ userIds : List Int, (firstDedup userIds).Nodup ∧
      ∀ u, u ∈ firstDedup userIds ↔ u ∈ userIds) := by
  refine ⟨?_, ?_, ?_, ?_, ?_, ?_⟩
  · intro reg uid env hnone
    rw [wsSendToUser_eq_map reg uid env]
    have hid : ∀ c ∈ reg,
        (if c.userId = uid then enqueueOrClose c env else c) = c := by
      intro c hc
      rw [if_neg (hnone c hc)]
    rw [List.map_congr_left hid]
    simp
  · intro c env h
    rw [enqueueOrClose, if_pos h]
  · intro c env h
    rw [enqueueOrClose, if_neg h]
  · exact wsSendToUser_eq_map
  · intro reg userIds env
    exact wsSendToUsersGo_eq_foldl userIds reg [] env
  · intro userIds
    refine ⟨nodup_firstDedupGo userIds [], fun u => ?_⟩
    rw [firstDedup, mem_firstDedupGo]
    simp

/-- C9 witness. -/
theorem fanout_dispatch_spec_witness :
    wsSendToUser [⟨3, [], 2, false⟩] 5 "e" = [⟨3, [], 2, false⟩] :=
  fanout_dispatch_spec.1 [⟨3, [], 2, false⟩] 5 "e" (by decide)

/-! ### Receipt upsert lemmas, the mark-seen operation (C1), and
receipt monotonicity (C3) -/

theorem findReceipt_nil (mid uid : Int) :
    findReceipt [] mid uid = none := rfl

theorem findReceipt_cons (r : ReceiptRow) (rest : List ReceiptRow)
    (mid uid : Int) :
    findReceipt (r :: rest) mid uid =
      if receiptKeyMatches r mid uid then some r
      else findReceipt rest mid uid := rfl

/-- Shared helper: the key test spelled out. -/
theorem receiptKeyMatches_iff (r : ReceiptRow) (mid uid : Int) :
    receiptKeyMatches r mid uid = true ↔
      r.messageId = mid ∧ r.userId = uid := by
  simp [receiptKeyMatches]

theorem upsertSeenRow_fst_nil (roomId msgId userId : Int)
    (now : Time) :
    (upsertSeenRow [] roomId msgId userId now).1 =
      [⟨roomId, msgId, userId, .seen, now⟩] := rfl

theorem upsertSeenRow_fst_pos (r : ReceiptRow) (rest : List ReceiptRow)
    (roomId msgId userId : Int) (now : Time)
    (h : receiptKeyMatches r msgId userId = true) :
    (upsertSeenRow (r :: rest) roomId msgId userId now).1 =
      { r with status := .seen, seenAt := max r.seenAt now } :: rest := by
  unfold upsertSeenRow
  rw [if_pos h]

theorem upsertSeenRow_fst_neg (r : ReceiptRow) (rest : List ReceiptRow)
    (roomId msgId userId : Int) (now : Time)
    (h : ¬receiptKeyMatches r msgId userId = true) :
    (upsertSeenRow (r :: rest) roomId msgId userId now).1 =
      r :: (upsertSeenRow rest roomId msgId userId now).1 := by
  conv_lhs => rw [upsertSeenRow]
  rw [if_neg h]

/-- Shared helper: the seen upsert on the looked-up key produces the
seen row with the monotone timestamp. -/
theorem findReceipt_upsertSeen_self (rs : List ReceiptRow)
    (roomId msgId userId : Int) (now : Time) :
    findReceipt (upsertSeenRow rs roomId msgId userId now).1
      msgId userId =
      some (match findReceipt rs msgId userId with
        | none => ⟨roomId, msgId, userId, .seen, now⟩
        | some r =>
          { r with status := .seen, seenAt := max r.seenAt now }) := by
  induction rs with
  | nil =>
    rw [upsertSeenRow_fst_nil, findReceipt_cons,
      if_pos ((receiptKeyMatches_iff _ _ _).mpr ⟨rfl, rfl⟩)]
    rfl
  | cons r rest ih =>
    by_cases h : receiptKeyMatches r msgId userId = true
    · rw [upsertSeenRow_fst_pos r rest roomId msgId userId now h,
        findReceipt_cons, if_pos (by exact h), findReceipt_cons,
        if_pos h]
    · rw [upsertSeenRow_fst_neg r rest roomId msgId userId now h,
        findReceipt_cons, if_neg h, findReceipt_cons, if_neg h, ih]

/-- Shared helper: the seen upsert leaves receipts of every other key
unchanged. -/
theorem findReceipt_upsertSeen_other (rs : List ReceiptRow)
    (roomId msgId userId : Int) (now : Time) (mid uid : Int)
    (h : ¬(mid = msgId ∧ uid = userId)) :
    findReceipt (upsertSeenRow rs roomId msgId userId now).1 mid uid =
      findReceipt rs mid uid := by
  induction rs with
  | nil =>
    rw [upsertSeenRow_fst_nil, findReceipt_cons, if_neg]
    intro hk
    obtain ⟨h1, h2⟩ := (receiptKeyMatches_iff _ _ _).mp hk
    exact h ⟨h1.symm, h2.symm⟩
  | cons r rest ih =>
    by_cases hk : receiptKeyMatches r msgId userId = true
    · have hobs : ¬ receiptKeyMatches r mid uid = true := by
        intro ho
        obtain ⟨hk1, hk2⟩ := (receiptKeyMatches_iff _ _ _).mp hk
        obtain ⟨ho1, ho2⟩ := (receiptKeyMatches_iff _ _ _).mp ho
        exact h ⟨ho1.symm.trans hk1, ho2.symm.trans hk2⟩
      rw [upsertSeenRow_fst_pos r rest roomId msgId userId now hk,
        findReceipt_cons, if_neg (by exact hobs), findReceipt_cons,
        if_neg hobs]
    · rw [upsertSeenRow_fst_neg r rest roomId msgId userId now hk,
        findReceipt_cons, findReceipt_cons, ih]

/-- Shared helper: folding the seen upserts over messages of other
ids, or for another user, changes nothing on the observed key. -/
theorem findReceipt_foldSeen_other (targets : List Msg)
    (rs : List ReceiptRow) (userId : Int) (now : Time) (mid uid : Int)
    (h : uid ≠ userId ∨ ∀ m ∈ targets, m.id ≠ mid) :
    findReceipt (foldSeenUpserts rs targets userId now).1 mid uid =
      findReceipt rs mid uid := by
  induction targets generalizing rs with
  | nil => rfl
  | cons t ts ih =>
    have hstep : ¬(mid = t.id ∧ uid = userId) := by
      rintro ⟨h1, h2⟩
      rcases h with h | h
      · exact h h2
      · exact h t (List.mem_cons_self t ts) h1.symm
    have htail : uid ≠ userId ∨ ∀ m ∈ ts, m.id ≠ mid := by
      rcases h with h | h
      · exact Or.inl h
      · exact Or.inr (fun m hm => h m (List.mem_cons_of_mem t hm))
    show findReceipt (foldSeenUpserts
      (upsertSeenRow rs t.roomId t.id userId now).1 ts userId now).1
      mid uid = _
    rw [ih _ htail,
      findReceipt_upsertSeen_other rs t.roomId t.id userId now mid uid
        hstep]

/-- Shared helper: folding the seen upserts over a list of messages
with distinct ids marks each of them seen with the monotone
timestamp. -/
theorem findReceipt_foldSeen_self (targets : List Msg)
    (rs : List ReceiptRow) (userId : Int) (now : Time)
    (hnd : (targets.map Msg.id).Nodup) (m : Msg) (hm : m ∈ targets) :
    findReceipt (foldSeenUpserts rs targets userId now).1 m.id userId =
      some (match findReceipt rs m.id userId with
        | none => ⟨m.roomId, m.id, userId, .seen, now⟩
        | some r =>
          { r with status := .seen, seenAt := max r.seenAt now }) := by
  induction targets generalizing rs with
  | nil => cases hm
  | cons t ts ih =>
    rw [List.map_cons, List.nodup_cons] at hnd
    rcases List.mem_cons.mp hm with he | hmem
    · subst he
      show findReceipt (foldSeenUpserts
        (upsertSeenRow rs m.roomId m.id userId now).1 ts userId now).1
        m.id userId = _
      rw [findReceipt_foldSeen_other ts _ userId now m.id userId
        (Or.inr ?_), findReceipt_upsertSeen_self]
      intro m2 hm2 heq
      exact hnd.1 (heq ▸ List.mem_map_of_mem Msg.id hm2)
    · have hne : m.id ≠ t.id := by
        intro heq
        exact hnd.1 (heq ▸ List.mem_map_of_mem Msg.id hmem)
      show findReceipt (foldSeenUpserts
        (upsertSeenRow rs t.roomId t.id userId now).1 ts userId now).1
        m.id userId = _
      rw [ih _ hnd.2 hmem,
        findReceipt_upsertSeen_other rs t.roomId t.id userId now m.id
          userId (fun hc => hne hc.1)]

theorem getUnreadCount_congr (dbA dbB : DB)
    (hm : dbA.members = dbB.members)
    (hms : dbA.messages = dbB.messages) (rid uid : Int) :
    getUnreadCount dbA rid uid = getUnreadCount dbB rid uid := by
  unfold getUnreadCount findMembership
  rw [hm, hms]

/-- Witness fixture: the receipt `MarkRoomSeenUpTo` writes in
`dbOneMsg`. -/
def rcptSeen : ReceiptRow :=
  { roomId := 1, messageId := 1, userId := 2, status := .seen,
    seenAt := 200 }

/-- Witness fixture: `dbOneMsg` after marking room 1 seen up to its
newest message. -/
def dbOneMsgMarked : DB := { dbOneMsg with receipts := [rcptSeen] }

/-- C1 counterexample: in `dbOneMsg`, member 2 marks room 1 seen up to
its newest message (id 1).  The operation succeeds and upserts the
receipt, but the membership row keeps `last_seen_message_id` and
`last_seen_at` NULL (the claim says they become the new maxima), and
the unread count stays 1 instead of dropping to 0. -/
theorem mark_seen_cursor_counterexample :
    markRoomSeenUpTo dbOneMsg 1 2 1 200 = .ok (dbOneMsgMarked, 1) ∧
    dbOneMsgMarked.members = dbOneMsg.members ∧
    dbOneMsgMarked.members.map Membership.lastSeenMessageId = [none] ∧
    dbOneMsgMarked.members.map Membership.lastSeenAt = [none] ∧
    getUnreadCount dbOneMsgMarked 1 2 = .ok 1 ∧
    getUnreadCount dbOneMsgMarked 1 2 ≠ .ok 0 := by
  refine ⟨by decide, by decide, by decide, by decide, by decide,
    by decide⟩

/-- C1 as amended: `MarkRoomSeenUpTo` upserts a seen receipt with the
monotone `seen_at` for every message of the room with id at most
`upToMessageID` from another sender, touches no other receipt key of
other users, and leaves the membership rows and messages unchanged —
so every unread count, which is computed from the membership row's
`last_seen_at`, is unchanged rather than driven to zero. -/
theorem mark_seen_receipts_only (db : DB) (roomId userId upTo : Int)
    (now : Time) (db2 : DB) (n : Int)
    (hnd : (db.messages.map Msg.id).Nodup)
    (hok : markRoomSeenUpTo db roomId userId upTo now = .ok (db2, n)) :
    db2.members = db.members ∧ db2.messages = db.messages ∧
    (∀ rid uid, getUnreadCount db2 rid uid = getUnreadCount db rid uid) ∧
    (∀ m ∈ db.messages, m.roomId = roomId → m.id ≤ upTo →
      m.senderId ≠ userId →
      findReceipt db2.receipts m.id userId =
        some (match findReceipt db.receipts m.id userId with
          | none => ⟨m.roomId, m.id, userId, .seen, now⟩
          | some r =>
            { r with status := .seen, seenAt := max r.seenAt now })) ∧
    (∀ mid uid, uid ≠ userId →
      findReceipt db2.receipts mid uid = findReceipt db.receipts mid uid)
    := by
  unfold markRoomSeenUpTo at hok
  by_cases hg : (roomId ≤ 0 || userId ≤ 0 || upTo ≤ 0) = true
  · rw [if_pos hg] at hok
    cases hok
  · rw [if_neg hg] at hok
    simp only [Except.ok.injEq, Prod.mk.injEq] at hok
    obtain ⟨hdb2, _⟩ := hok
    have hmem : db2.members = db.members := by rw [← hdb2]
    have hmsg : db2.messages = db.messages := by rw [← hdb2]
    have hnd2 : ((db.messages.filter (fun m => m.roomId = roomId &&
        m.id ≤ upTo && m.senderId ≠ userId)).map Msg.id).Nodup :=
      hnd.sublist (List.Sublist.map Msg.id (List.filter_sublist _))
    refine ⟨hmem, hmsg, fun rid uid =>
      getUnreadCount_congr db2 db hmem hmsg rid uid, ?_, ?_⟩
    · intro m hm hroom hle hsender
      have hmt : m ∈ db.messages.filter (fun m => m.roomId = roomId &&
          m.id ≤ upTo && m.senderId ≠ userId) :=
        List.mem_filter.mpr ⟨hm, by simp [hroom, hle, hsender]⟩
      rw [← hdb2]
      exact findReceipt_foldSeen_self _ db.receipts userId now hnd2 m hmt
    · intro mid uid huid
      rw [← hdb2]
      exact findReceipt_foldSeen_other _ db.receipts userId now mid uid
        (Or.inl huid)

/-- C1 amended witness. -/
theorem mark_seen_receipts_only_witness :
    dbOneMsgMarked.members = dbOneMsg.members ∧
    getUnreadCount dbOneMsgMarked 1 2 = getUnreadCount dbOneMsg 1 2 := by
  have h := mark_seen_receipts_only dbOneMsg 1 2 1 200 dbOneMsgMarked 1
    (by decide) (by decide)
  exact ⟨h.1, h.2.2.1 1 2⟩

/-! ### Receipt monotonicity (C3) -/

/-- Rank of a receipt status: `seen` strictly above `delivered`. -/
def statusRank : ReceiptStatus → Nat
  | .delivered => 0
  | .seen => 1

/-- Order on an observed receipt row: a row may appear, its status may
only go up in rank (never from seen back to delivered), and its
`seen_at` may only grow. -/
def rowLE : Option ReceiptRow → Option ReceiptRow → Prop
  | none, _ => True
  | some _, none => False
  | some r1, some r2 =>
    statusRank r1.status ≤ statusRank r2.status ∧ r1.seenAt ≤ r2.seenAt

theorem rowLE_refl (o : Option ReceiptRow) : rowLE o o := by
  cases o with
  | none => trivial
  | some r => exact ⟨le_refl _, le_refl _⟩

theorem rowLE_trans {a b c : Option ReceiptRow} (h1 : rowLE a b)
    (h2 : rowLE b c) : rowLE a c := by
  cases a with
  | none => trivial
  | some r1 =>
    cases b with
    | none => cases h1
    | some r2 =>
      cases c with
      | none => cases h2
      | some r3 => exact ⟨h1.1.trans h2.1, h1.2.trans h2.2⟩

theorem statusRank_le_one (s : ReceiptStatus) : statusRank s ≤ 1 := by
  cases s <;> decide

/-- Shared helper: one seen upsert never lowers any observed row. -/
theorem findReceipt_upsertSeen_mono (rs : List ReceiptRow)
    (roomId msgId userId : Int) (now : Time) (mid uid : Int) :
    rowLE (findReceipt rs mid uid)
      (findReceipt (upsertSeenRow rs roomId msgId userId now).1
        mid uid) := by
  by_cases hk : mid = msgId ∧ uid = userId
  · obtain ⟨h1, h2⟩ := hk
    subst h1
    subst h2
    rw [findReceipt_upsertSeen_self]
    cases hold : findReceipt rs mid uid with
    | none => trivial
    | some r => exact ⟨statusRank_le_one _, le_max_left _ _⟩
  · rw [findReceipt_upsertSeen_other rs roomId msgId userId now mid uid
      hk]
    exact rowLE_refl _

theorem upsertDeliveredRow_nil (roomId msgId userId : Int)
    (now : Time) :
    upsertDeliveredRow [] roomId msgId userId now =
      [⟨roomId, msgId, userId, .delivered, now⟩] := rfl

theorem upsertDeliveredRow_pos (r : ReceiptRow)
    (rest : List ReceiptRow) (roomId msgId userId : Int) (now : Time)
    (h : receiptKeyMatches r msgId userId = true) :
    upsertDeliveredRow (r :: rest) roomId msgId userId now =
      (if r.status = .seen then r
       else { r with status := .delivered, seenAt := max r.seenAt now })
        :: rest := by
  conv_lhs => rw [upsertDeliveredRow]
  rw [if_pos h]

theorem upsertDeliveredRow_neg (r : ReceiptRow)
    (rest : List ReceiptRow) (roomId msgId userId : Int) (now : Time)
    (h : ¬receiptKeyMatches r msgId userId = true) :
    upsertDeliveredRow (r :: rest) roomId msgId userId now =
      r :: upsertDeliveredRow rest roomId msgId userId now := by
  conv_lhs => rw [upsertDeliveredRow]
  rw [if_neg h]

/-- Shared helper: one delivered upsert never lowers any observed row
(in particular a seen row stays seen). -/
theorem findReceipt_upsertDelivered_mono (rs : List ReceiptRow)
    (roomId msgId userId : Int) (now : Time) (mid uid : Int) :
    rowLE (findReceipt rs mid uid)
      (findReceipt (upsertDeliveredRow rs roomId msgId userId now)
        mid uid) := by
  induction rs with
  | nil => trivial
  | cons r rest ih =>
    by_cases hk : receiptKeyMatches r msgId userId = true
    · by_cases hst : r.status = .seen
      · rw [upsertDeliveredRow_pos r rest roomId msgId userId now hk,
          if_pos hst]
        exact rowLE_refl _
      · rw [upsertDeliveredRow_pos r rest roomId msgId userId now hk,
          if_neg hst]
        by_cases hobs : receiptKeyMatches r mid uid = true
        · rw [findReceipt_cons, if_pos hobs, findReceipt_cons,
            if_pos (by exact hobs)]
          refine ⟨?_, le_max_left _ _⟩
          cases hsr : r.status with
          | delivered => exact le_refl _
          | seen => exact absurd hsr hst
        · rw [findReceipt_cons, if_neg hobs, findReceipt_cons,
            if_neg (by exact hobs)]
          exact rowLE_refl _
    · rw [upsertDeliveredRow_neg r rest roomId msgId userId now hk]
      by_cases hobs : receiptKeyMatches r mid uid = true
      · rw [findReceipt_cons, if_pos hobs, findReceipt_cons,
          if_pos hobs]
        exact rowLE_refl _
      · rw [findReceipt_cons, if_neg hobs, findReceipt_cons,
          if_neg hobs]
        exact ih

/-- Shared helper: the bulk mark-seen fold never lowers any observed
row. -/
theorem findReceipt_foldSeen_mono (targets : List Msg)
    (rs : List ReceiptRow) (userId : Int) (now : Time) (mid uid : Int) :
    rowLE (findReceipt rs mid uid)
      (findReceipt (foldSeenUpserts rs targets userId now).1 mid uid)
    := by
  induction targets generalizing rs with
  | nil => exact rowLE_refl _
  | cons t ts ih =>
    show rowLE _ (findReceipt (foldSeenUpserts
      (upsertSeenRow rs t.roomId t.id userId now).1 ts userId now).1
      mid uid)
    exact rowLE_trans
      (findReceipt_upsertSeen_mono rs t.roomId t.id userId now mid uid)
      (ih _)

theorem le_cursorStep (cr cu : Int) (acc : Int) (r : ReceiptRow) :
    acc ≤ cursorStep cr cu acc r := by
  unfold cursorStep
  by_cases h : (r.roomId = cr && r.userId = cu && r.status = .seen)
      = true
  · rw [if_pos h]
    exact le_max_left _ _
  · rw [if_neg h]

theorem cursorStep_acc_mono (cr cu : Int) {acc acc2 : Int}
    (h : acc ≤ acc2) (r : ReceiptRow) :
    cursorStep cr cu acc r ≤ cursorStep cr cu acc2 r := by
  unfold cursorStep
  by_cases hc : (r.roomId = cr && r.userId = cu && r.status = .seen)
      = true
  · rw [if_pos hc, if_pos hc]
    exact max_le_max h (le_refl _)
  · rw [if_neg hc, if_neg hc]
    exact h

theorem foldl_cursorStep_acc_mono (cr cu : Int) (rs : List ReceiptRow) :
    ∀ {acc acc2 : Int}, acc ≤ acc2 →
      rs.foldl (cursorStep cr cu) acc ≤ rs.foldl (cursorStep cr cu) acc2
    := by
  induction rs with
  | nil => intro acc acc2 h; exact h
  | cons r rest ih =>
    intro acc acc2 h
    simp only [List.foldl_cons]
    exact ih (cursorStep_acc_mono cr cu h r)

/-- Shared helper: upgrading a row to seen with a later timestamp
never lowers a cursor step. -/
theorem cursorStep_seenUpgrade (cr cu : Int) {acc acc2 : Int}
    (h : acc ≤ acc2) (r : ReceiptRow) (now : Time) :
    cursorStep cr cu acc r ≤ cursorStep cr cu acc2
      { r with status := .seen, seenAt := max r.seenAt now } := by
  by_cases h1 : r.roomId = cr
  · by_cases h2 : r.userId = cu
    · rw [show cursorStep cr cu acc2
          { r with status := .seen, seenAt := max r.seenAt now } =
          max acc2 r.messageId from by
        unfold cursorStep
        rw [if_pos (by simp [h1, h2])]]
      by_cases h3 : r.status = .seen
      · rw [show cursorStep cr cu acc r = max acc r.messageId from by
          unfold cursorStep
          rw [if_pos (by simp [h1, h2, h3])]]
        exact max_le_max h (le_refl _)
      · rw [show cursorStep cr cu acc r = acc from by
          unfold cursorStep
          rw [if_neg (by simp [h3])]]
        exact h.trans (le_max_left _ _)
    · rw [show cursorStep cr cu acc r = acc from by
          unfold cursorStep
          rw [if_neg (by simp [h2])],
        show cursorStep cr cu acc2
            { r with status := .seen, seenAt := max r.seenAt now }
            = acc2 from by
          unfold cursorStep
          rw [if_neg (by simp [h2])]]
      exact h
  · rw [show cursorStep cr cu acc r = acc from by
        unfold cursorStep
        rw [if_neg (by simp [h1])],
      show cursorStep cr cu acc2
          { r with status := .seen, seenAt := max r.seenAt now }
          = acc2 from by
        unfold cursorStep
        rw [if_neg (by simp [h1])]]
    exact h

/-- Shared helper: the delivered upsert result of a row never lowers a
cursor step (a seen row is kept, a delivered row stays invisible to
the cursor). -/
theorem cursorStep_deliveredUpgrade (cr cu : Int) {acc acc2 : Int}
    (h : acc ≤ acc2) (r : ReceiptRow) (now : Time) :
    cursorStep cr cu acc r ≤ cursorStep cr cu acc2
      (if r.status = .seen then r
       else { r with status := .delivered, seenAt := max r.seenAt now })
    := by
  by_cases h3 : r.status = .seen
  · rw [if_pos h3]
    exact cursorStep_acc_mono cr cu h r
  · rw [if_neg h3,
      show cursorStep cr cu acc r = acc from by
        unfold cursorStep
        rw [if_neg (by simp [h3])],
      show cursorStep cr cu acc2
          { r with status := .delivered, seenAt := max r.seenAt now }
          = acc2 from by
        unfold cursorStep
        rw [if_neg (by simp)]]
    exact h

theorem foldl_cursorStep_upsertSeen (cr cu roomId msgId userId : Int)
    (now : Time) (rs : List ReceiptRow) :
    ∀ {acc acc2 : Int}, acc ≤ acc2 →
      rs.foldl (cursorStep cr cu) acc ≤
        ((upsertSeenRow rs roomId msgId userId now).1).foldl
          (cursorStep cr cu) acc2 := by
  induction rs with
  | nil =>
    intro acc acc2 h
    rw [upsertSeenRow_fst_nil]
    simp only [List.foldl_cons, List.foldl_nil]
    exact h.trans ((le_cursorStep cr cu acc2 _))
  | cons r rest ih =>
    intro acc acc2 h
    by_cases hk : receiptKeyMatches r msgId userId = true
    · rw [upsertSeenRow_fst_pos r rest roomId msgId userId now hk]
      simp only [List.foldl_cons]
      exact foldl_cursorStep_acc_mono cr cu rest
        (cursorStep_seenUpgrade cr cu h r now)
    · rw [upsertSeenRow_fst_neg r rest roomId msgId userId now hk]
      simp only [List.foldl_cons]
      exact ih (cursorStep_acc_mono cr cu h r)

theorem foldl_cursorStep_upsertDelivered
    (cr cu roomId msgId userId : Int) (now : Time)
    (rs : List ReceiptRow) :
    ∀ {acc acc2 : Int}, acc ≤ acc2 →
      rs.foldl (cursorStep cr cu) acc ≤
        (upsertDeliveredRow rs roomId msgId userId now).foldl
          (cursorStep cr cu) acc2 := by
  induction rs with
  | nil =>
    intro acc acc2 h
    rw [upsertDeliveredRow_nil]
    simp only [List.foldl_cons, List.foldl_nil]
    exact h.trans ((le_cursorStep cr cu acc2 _))
  | cons r rest ih =>
    intro acc acc2 h
    by_cases hk : receiptKeyMatches r msgId userId = true
    · rw [upsertDeliveredRow_pos r rest roomId msgId userId now hk]
      simp only [List.foldl_cons]
      exact foldl_cursorStep_acc_mono cr cu rest
        (cursorStep_deliveredUpgrade cr cu h r now)
    · rw [upsertDeliveredRow_neg r rest roomId msgId userId now hk]
      simp only [List.foldl_cons]
      exact ih (cursorStep_acc_mono cr cu h r)

theorem foldl_cursorStep_foldSeen (cr cu userId : Int) (now : Time)
    (targets : List Msg) :
    ∀ (rs : List ReceiptRow) {acc acc2 : Int}, acc ≤ acc2 →
      rs.foldl (cursorStep cr cu) acc ≤
        ((foldSeenUpserts rs targets userId now).1).foldl
          (cursorStep cr cu) acc2 := by
  induction targets with
  | nil =>
    intro rs acc acc2 h
    exact foldl_cursorStep_acc_mono cr cu rs h
  | cons t ts ih =>
    intro rs acc acc2 h
    show rs.foldl (cursorStep cr cu) acc ≤
      ((foldSeenUpserts (upsertSeenRow rs t.roomId t.id userId now).1
        ts userId now).1).foldl (cursorStep cr cu) acc2
    exact le_trans
      (foldl_cursorStep_upsertSeen cr cu t.roomId t.id userId now rs
        (le_refl acc))
      (ih _ h)

/-- One receipt-writing operation of the repository: `SetDelivered`,
`SetSeen`, or `MarkRoomSeenUpTo`, together with its `NOW()`
timestamp. -/
inductive ReceiptOp where
  | delivered (roomId msgId userId : Int) (now : Time)
  | seen (roomId msgId userId : Int) (now : Time)
  | markUpTo (roomId userId upTo : Int) (now : Time)
deriving DecidableEq, Repr

/-- Run one receipt operation; a guard error leaves the store
unchanged. -/
def applyReceiptOp (db : DB) (op : ReceiptOp) : DB :=
  match op with
  | .delivered r m u t =>
    match setDelivered db r m u t with
    | .ok db2 => db2
    | .error _ => db
  | .seen r m u t =>
    match setSeen db r m u t with
    | .ok db2 => db2
    | .error _ => db
  | .markUpTo r u upTo t =>
    match markRoomSeenUpTo db r u upTo t with
    | .ok p => p.1
    | .error _ => db

/-- Run a sequence of receipt operations. -/
def applyReceiptOps (db : DB) (ops : List ReceiptOp) : DB :=
  ops.foldl applyReceiptOp db

/-- Shared helper: every single receipt operation is monotone on every
observed receipt row. -/
theorem applyReceiptOp_find_mono (db : DB) (op : ReceiptOp)
    (mid uid : Int) :
    rowLE (findReceipt db.receipts mid uid)
      (findReceipt (applyReceiptOp db op).receipts mid uid) := by
  cases op with
  | delivered r m u t =>
    show rowLE _ (findReceipt
      (match setDelivered db r m u t with
       | .ok db2 => db2
       | .error _ => db).receipts mid uid)
    unfold setDelivered
    by_cases hg : (r ≤ 0 || m ≤ 0 || u ≤ 0) = true
    · rw [if_pos hg]
      exact rowLE_refl _
    · rw [if_neg hg]
      exact findReceipt_upsertDelivered_mono db.receipts r m u t mid uid
  | seen r m u t =>
    show rowLE _ (findReceipt
      (match setSeen db r m u t with
       | .ok db2 => db2
       | .error _ => db).receipts mid uid)
    unfold setSeen
    by_cases hg : (r ≤ 0 || m ≤ 0 || u ≤ 0) = true
    · rw [if_pos hg]
      exact rowLE_refl _
    · rw [if_neg hg]
      exact findReceipt_upsertSeen_mono db.receipts r m u t mid uid
  | markUpTo r u upTo t =>
    show rowLE _ (findReceipt
      (match markRoomSeenUpTo db r u upTo t with
       | .ok p => p.1
       | .error _ => db).receipts mid uid)
    unfold markRoomSeenUpTo
    by_cases hg : (r ≤ 0 || u ≤ 0 || upTo ≤ 0) = true
    · rw [if_pos hg]
      exact rowLE_refl _
    · rw [if_neg hg]
      exact findReceipt_foldSeen_mono _ db.receipts u t mid uid

/-- Shared helper: every single receipt operation is monotone on every
derived seen cursor. -/
theorem applyReceiptOp_cursor_mono (db : DB) (op : ReceiptOp)
    (cr cu : Int) :
    getRoomLastSeenMessageId db cr cu ≤
      getRoomLastSeenMessageId (applyReceiptOp db op) cr cu := by
  cases op with
  | delivered r m u t =>
    show getRoomLastSeenMessageId db cr cu ≤ getRoomLastSeenMessageId
      (match setDelivered db r m u t with
       | .ok db2 => db2
       | .error _ => db) cr cu
    unfold setDelivered
    by_cases hg : (r ≤ 0 || m ≤ 0 || u ≤ 0) = true
    · rw [if_pos hg]
    · rw [if_neg hg]
      exact foldl_cursorStep_upsertDelivered cr cu r m u t db.receipts
        (le_refl 0)
  | seen r m u t =>
    show getRoomLastSeenMessageId db cr cu ≤ getRoomLastSeenMessageId
      (match setSeen db r m u t with
       | .ok db2 => db2
       | .error _ => db) cr cu
    unfold setSeen
    by_cases hg : (r ≤ 0 || m ≤ 0 || u ≤ 0) = true
    · rw [if_pos hg]
    · rw [if_neg hg]
      exact foldl_cursorStep_upsertSeen cr cu r m u t db.receipts
        (le_refl 0)
  | markUpTo r u upTo t =>
    show getRoomLastSeenMessageId db cr cu ≤ getRoomLastSeenMessageId
      (match markRoomSeenUpTo db r u upTo t with
       | .ok p => p.1
       | .error _ => db) cr cu
    unfold markRoomSeenUpTo
    by_cases hg : (r ≤ 0 || u ≤ 0 || upTo ≤ 0) = true
    · rw [if_pos hg]
    · rw [if_neg hg]
      exact foldl_cursorStep_foldSeen cr cu u t _ db.receipts
        (le_refl 0)

/-- C3: receipt state is monotonic under every sequence of
`SetDelivered`, `SetSeen`, and `MarkRoomSeenUpTo` operations, with
arbitrary (increasing or decreasing) `upToMessageID` arguments: no
observed receipt row is ever downgraded from seen to delivered, its
`seen_at` never moves backward, and the derived seen cursor
(`GetRoomLastSeenMessageID`) never decreases. -/
theorem receipts_monotonic (db : DB) (ops : List ReceiptOp)
    (msgId userId roomId uid2 : Int) :
    rowLE (findReceipt db.receipts msgId userId)
      (findReceipt (applyReceiptOps db ops).receipts msgId userId) ∧
    getRoomLastSeenMessageId db roomId uid2 ≤
      getRoomLastSeenMessageId (applyReceiptOps db ops) roomId uid2
    := by
  induction ops generalizing db with
  | nil => exact ⟨rowLE_refl _, le_refl _⟩
  | cons op rest ih =>
    obtain ⟨ih1, ih2⟩ := ih (applyReceiptOp db op)
    exact ⟨rowLE_trans (applyReceiptOp_find_mono db op msgId userId) ih1,
      le_trans (applyReceiptOp_cursor_mono db op roomId uid2) ih2⟩

/-! ### Reaction summary aggregation and ordering (C8) -/

/-- C8: the reaction summary has one entry per distinct label of the
message, each entry carrying that label's row count and whether the
viewer holds that label, and the list is sorted by descending count
with ties broken by ascending label. -/
theorem reaction_summary_spec (db : DB) (msgId viewerId : Int)
    (items : List ReactionSummaryItem)
    (h : getReactionSummary db msgId viewerId = .ok items) :
    List.Sorted summaryLE items ∧
    (items.map ReactionSummaryItem.reaction).Nodup ∧
    (∀ l : String, l ∈ items.map ReactionSummaryItem.reaction ↔
      ∃ x ∈ db.reactions, x.messageId = msgId ∧ x.label = l) ∧
    (∀ it ∈ items,
      it.count = db.reactions.countP
        (fun x => x.messageId = msgId && x.label = it.reaction) ∧
      (it.reactedByMe = true ↔ ∃ x ∈ db.reactions,
        x.messageId = msgId ∧ x.label = it.reaction ∧
        x.userId = viewerId)) := by
  unfold getReactionSummary at h
  by_cases hg : msgId ≤ 0
  · rw [if_pos hg] at h
    cases h
  · rw [if_neg hg] at h
    simp only [Except.ok.injEq] at h
    subst h
    have hperm := List.perm_insertionSort summaryLE
      ((((db.reactions.filter (fun x => x.messageId = msgId)).map
        Reaction.label).dedup).map (fun l =>
          { reaction := l,
            count := (db.reactions.filter
              (fun x => x.messageId = msgId)).countP
              (fun x => x.label = l),
            reactedByMe := (db.reactions.filter
              (fun x => x.messageId = msgId)).any
              (fun x => x.label = l && x.userId = viewerId) }))
    have hbase_map :
        ((((db.reactions.filter (fun x => x.messageId = msgId)).map
          Reaction.label).dedup).map (fun l =>
            ({ reaction := l,
               count := (db.reactions.filter
                 (fun x => x.messageId = msgId)).countP
                 (fun x => x.label = l),
               reactedByMe := (db.reactions.filter
                 (fun x => x.messageId = msgId)).any
                 (fun x => x.label = l && x.userId = viewerId) }
              : ReactionSummaryItem))).map
          ReactionSummaryItem.reaction =
        (((db.reactions.filter (fun x => x.messageId = msgId)).map
          Reaction.label).dedup) := by
      rw [List.map_map]
      show List.map (fun l => l) _ = _
      simp
    refine ⟨List.sorted_insertionSort summaryLE _, ?_, ?_, ?_⟩
    · rw [(hperm.map ReactionSummaryItem.reaction).nodup_iff,
        hbase_map]
      exact List.nodup_dedup _
    · intro l
      rw [(hperm.map ReactionSummaryItem.reaction).mem_iff, hbase_map,
        List.mem_dedup, List.mem_map]
      constructor
      · rintro ⟨x, hx, hlab⟩
        have hx2 := List.mem_filter.mp hx
        exact ⟨x, hx2.1, by simpa using hx2.2, hlab⟩
      · rintro ⟨x, hx, hmid, hlab⟩
        exact ⟨x, List.mem_filter.mpr ⟨hx, by simp [hmid]⟩, hlab⟩
    · intro it hit
      have hit2 := hperm.mem_iff.mp hit
      obtain ⟨l, _, hfl⟩ := List.mem_map.mp hit2
      rw [← hfl]
      constructor
      · show (db.reactions.filter
          (fun x => x.messageId = msgId)).countP
          (fun x => x.label = l) = _
        rw [List.countP_filter]
        apply List.countP_congr
        intro x _
        simp only [Bool.and_eq_true, decide_eq_true_eq]
        exact and_comm
      · show (db.reactions.filter
          (fun x => x.messageId = msgId)).any
          (fun x => x.label = l && x.userId = viewerId) = true ↔ _
        rw [List.any_eq_true]
        constructor
        · rintro ⟨x, hx, hp⟩
          have hx2 := List.mem_filter.mp hx
          simp only [Bool.and_eq_true, decide_eq_true_eq] at hp
          exact ⟨x, hx2.1, by simpa using hx2.2, hp.1, hp.2⟩
        · rintro ⟨x, hx, hmid, hlab, huser⟩
          exact ⟨x, List.mem_filter.mpr ⟨hx, by simp [hmid]⟩,
            by simp [hlab, huser]⟩

/-- Witness fixture: message 1 with one reaction by user 7 with label
a and two reactions with label b by users 8 and 9. -/
def dbReact : DB :=
  { reactions := [⟨1, 7, "a"⟩, ⟨1, 8, "b"⟩, ⟨1, 9, "b"⟩] }

/-- C8 witness. -/
theorem reaction_summary_spec_witness :
    List.Sorted summaryLE [⟨"b", 2, false⟩, ⟨"a", 1, true⟩] ∧
    ([⟨"b", 2, false⟩, ⟨"a", 1, true⟩].map
      ReactionSummaryItem.reaction).Nodup := by
  have h : getReactionSummary dbReact 1 7 =
      .ok [⟨"b", 2, false⟩, ⟨"a", 1, true⟩] := by decide
  have hs := reaction_summary_spec dbReact 1 7 _ h
  exact ⟨hs.1, hs.2.1⟩

end CronChat
